import Mathlib

/-!
Verification of the HK Chinese dictation helper.

Shallow embedding of the core logic of the application:
* `analyzeMaterial`, `chatWithAssistant` (services/geminiService.ts),
* the practice session controller `handleNext`, the stage-reset effect,
  `handlePlayAudio` and the recognition `onresult` handler
  (components/Practice.tsx),
* `handleStart` (App.tsx) and `handleProcess` (components/Setup.tsx).

JavaScript values that may be `undefined` are embedded as `Option`;
the JavaScript truthiness of `a || b` on strings (where the empty string
is falsy) is embedded by `jsOr`.  Asynchronous backend calls are embedded
as explicit parameters describing the outcome of the awaited call
(`CallResult`), so that the `try ... catch` structure of the services
becomes a total function on outcomes.
-/

namespace Dictation

/-- JavaScript `a || b` for a possibly-undefined string `a`:
`undefined` and the empty string are falsy, so they yield the default. -/
def jsOr (o : Option String) (d : String) : String :=
  match o with
  | none => d
  | some s => if s = "" then d else s

/-- JavaScript string coercion of a possibly-undefined string value
(template literals and text sinks render `undefined` as `"undefined"`). -/
def jsString (o : Option String) : String :=
  match o with
  | none => "undefined"
  | some s => s

/-- JavaScript `String.prototype.trim`: strip leading and trailing
whitespace characters. -/
def jsTrim (s : String) : String :=
  ⟨((s.data.dropWhile Char.isWhitespace).reverse.dropWhile
      Char.isWhitespace).reverse⟩

theorem jsOr_ne_empty (o : Option String) (d : String) (hd : d ≠ "") :
    jsOr o d ≠ "" := by
  unfold jsOr
  cases o with
  | none => exact hd
  | some s =>
    by_cases hs : s = ""
    · simp [hs, hd]
    · simp [hs]

/-- `DictationMode` from types.ts. -/
inductive DictationMode where
  | paragraph
  | vocab
  | idiom
deriving DecidableEq

/-- `DictationItem` from types.ts.  The interface declares `content` as a
required string, but the normalization in `analyzeMaterial` passes
`item.content` through unchecked, so at run time it can be `undefined`;
the embedding therefore keeps `content` optional like the other fields. -/
structure DictationItem where
  id : String
  content : Option String
  subContent : Option String
  meaning : Option String
  exampleSentence : Option String
  clozeContent : Option String
  isNewParagraph : Option Bool
deriving DecidableEq

/-- A raw item as decoded from the extraction response JSON, before the
normalizing `.map` in `analyzeMaterial`: every field may be absent. -/
structure RawItem where
  id : Option String
  content : Option String
  subContent : Option String
  pinyin : Option String
  meaning : Option String
  exampleSentence : Option String
  clozeContent : Option String
  newParagraph : Option Bool
deriving DecidableEq

/-- The per-item normalization inside `analyzeMaterial`:
`rawItems.map((item, index) => ({ id: index.toString(), content: item.content,
subContent: item.subContent || item.pinyin || "", meaning: item.meaning || "",
example: item.example || "", clozeContent: item.clozeContent || "",
isNewParagraph: item.newParagraph || false }))`. -/
def normalizeItem (index : Nat) (item : RawItem) : DictationItem :=
  { id := toString index
  , content := item.content
  , subContent := some (jsOr item.subContent (jsOr item.pinyin ""))
  , meaning := some (jsOr item.meaning "")
  , exampleSentence := some (jsOr item.exampleSentence "")
  , clozeContent := some (jsOr item.clozeContent "")
  , isNewParagraph := some (item.newParagraph.getD false) }

/-- JavaScript `Array.prototype.map` with the element index, as used for
the raw-item normalization. -/
def mapWithIndex (f : Nat → RawItem → DictationItem) : Nat → List RawItem → List DictationItem
  | _, [] => []
  | i, item :: rest => f i item :: mapWithIndex f (i + 1) rest

/-- Outcome of an awaited backend call inside a `try` block:
either the call throws (transport error, rejected promise), or it
resolves with a `text` field that may be `undefined`. -/
inductive CallResult where
  | failure
  | success (text : Option String)
deriving DecidableEq

/-- An attachment passed to `analyzeMaterial`: `{ mimeType, data }`. -/
structure Attachment where
  mimeType : String
  data : String
deriving DecidableEq

/-- `analyzeMaterial` from services/geminiService.ts.  The generative
call is embedded as `call` (a function of the request inputs), and
`JSON.parse` plus the array check done by `.map` is embedded as
`parseJson` (`none` when parsing throws or the payload is not an array
of objects).  The `try ... catch` that returns `[]` on any thrown error
becomes the `.failure` and `none` branches. -/
def analyzeMaterial
    (parseJson : String → Option (List RawItem))
    (call : String → List Attachment → DictationMode → CallResult)
    (text : String) (files : List Attachment) (mode : DictationMode) :
    List DictationItem :=
  match call text files mode with
  | .failure => []
  | .success respText =>
    match parseJson (jsOr respText "[]") with
    | none => []
    | some rawItems => mapWithIndex normalizeItem 0 rawItems

/-- Chat roles from types.ts (`'user' | 'model'`). -/
inductive ChatRole where
  | user
  | model
deriving DecidableEq

def roleString : ChatRole → String
  | .user => "user"
  | .model => "model"

/-- The prompt template built inside `chatWithAssistant`. -/
def chatPrompt (history : List (ChatRole × String)) (currentMessage : String)
    (context : Option String) : String :=
  "\n    You are a friendly, encouraging robot assistant helping a child study Chinese dictation.\n    Context: "
    ++ jsOr context "No specific list."
    ++ "\n    \n    Current Chat History:\n    "
    ++ String.intercalate "\n" (history.map (fun h => roleString h.1 ++ ": " ++ h.2))
    ++ "\n    \n    User: " ++ currentMessage
    ++ "\n    \n    Response (Keep it short, encouraging. Use Traditional Chinese):\n    "

/-- The fixed fallback reply returned by the `catch` in `chatWithAssistant`. -/
def chatFallback : String := "出了點小問題，我們繼續努力！"

/-- The default reply used when the backend resolves without text
(`response.text || "加油！"`). -/
def chatDefaultReply : String := "加油！"

/-- `chatWithAssistant` from services/geminiService.ts: build the prompt,
await the generative call, return `response.text || "加油！"`; the `catch`
returns the fixed fallback string. -/
def chatWithAssistant (call : String → CallResult)
    (history : List (ChatRole × String)) (currentMessage : String)
    (context : Option String) : String :=
  match call (chatPrompt history currentMessage context) with
  | .failure => chatFallback
  | .success text => jsOr text chatDefaultReply

/-! ### Practice session controller (components/Practice.tsx) -/

/-- The per-item stage (`'reading' | 'revealed'`). -/
inductive Stage where
  | reading
  | revealed
deriving DecidableEq

/-- `RobotEmotion` from types.ts. -/
inductive RobotEmotion where
  | idle
  | happy
  | thinking
  | speaking
  | sad
deriving DecidableEq

/-- A chat message in the practice session log (audio fields omitted:
`handleNext` only appends text messages). -/
structure ChatMessage where
  id : String
  role : ChatRole
  text : String
deriving DecidableEq

/-- The state owned by the Practice component that `handleNext` touches. -/
structure PracticeState where
  currentIndex : Nat
  stage : Stage
  robotEmotion : RobotEmotion
  messages : List ChatMessage
deriving DecidableEq

/-- The congratulatory terminal message appended at the end of the list. -/
def finishedText : String := "恭喜你！完成了所有默書內容！🎉"

/-- `handleNext` from Practice: in `reading` stage it reveals; in
`revealed` stage it advances when `currentIndex < items.length - 1`
(truncated subtraction agrees with the JavaScript comparison against
`-1` for the empty list, since both comparisons are then false), and
otherwise appends the congratulatory message and sets the happy emotion.
`now` stands for `Date.now().toString()`, the id of the appended message. -/
def handleNext (items : List DictationItem) (now : String)
    (s : PracticeState) : PracticeState :=
  match s.stage with
  | .reading => { s with stage := .revealed }
  | .revealed =>
    if s.currentIndex < items.length - 1 then
      { s with currentIndex := s.currentIndex + 1
             , stage := .reading
             , robotEmotion := .idle }
    else
      { s with messages := s.messages ++ [⟨now, .model, finishedText⟩]
             , robotEmotion := .happy }

/-- The `useEffect(() => { setStage('reading') }, [currentIndex])` in
Practice: whenever the current index changes, the stage is set back to
`reading`. -/
def stageResetEffect (s : PracticeState) : PracticeState :=
  { s with stage := .reading }

/-! ### Playback sequencing (`handlePlayAudio` / `speakText`) -/

/-- A local speech request as issued by `speakText`: the text handed to
`SpeechSynthesisUtterance`, and the utterance rate in tenths
(`utterance.rate = isSlow ? 0.7 : 0.9`). -/
structure ScheduledUtterance where
  delayMs : Nat
  text : String
  rate10 : Nat
deriving DecidableEq

/-- `utterance.rate` in tenths as set by `speakText`. -/
def speakRate10 (isSlow : Bool) : Nat :=
  if isSlow then 7 else 9

/-- The fixed text prepended to the meaning utterance in idiom mode. -/
def meaningLeadIn : String := "意思是："

/-- The fixed `setTimeout` delay (milliseconds) before the idiom meaning
utterance is issued. -/
def idiomDelayMs : Nat := 2000

/-- `handlePlayAudio` from Practice, as the list of speech requests it
issues for the current item, in issue order, each with the wall-clock
delay after which it is issued (0 = issued immediately, 2000 = via
`setTimeout`, independent of any completion callback). -/
def handlePlayAudio (mode : DictationMode) (item : DictationItem) :
    List ScheduledUtterance :=
  match mode with
  | .paragraph => [⟨0, jsString item.content, speakRate10 true⟩]
  | .idiom =>
    [⟨0, jsString item.content, speakRate10 false⟩,
     ⟨idiomDelayMs, meaningLeadIn ++ jsString item.meaning, speakRate10 false⟩]
  | .vocab => [⟨0, jsString item.content, speakRate10 false⟩]

/-! ### Speech recognition (`toggleListening`, `recognition.onresult`) -/

/-- One entry of `event.results`; `transcript0` is `result[0].transcript`,
the transcript of the top alternative. -/
structure SpeechResult where
  transcript0 : String
deriving DecidableEq

/-- The transcript computed by the `onresult` handler:
`Array.from(event.results).map(result => result[0].transcript).join('')`. -/
def onresultTranscript (results : List SpeechResult) : String :=
  String.join (results.map (fun r => r.transcript0))

/-- One `onresult` event applied to the transcript buffer:
`setChatInput(transcript)` replaces the buffer. -/
def applyResultEvent (_buffer : String) (ev : List SpeechResult) : String :=
  onresultTranscript ev

/-- A sequence of recognition result events applied to the buffer. -/
def runResultEvents (buffer : String) (events : List (List SpeechResult)) :
    String :=
  events.foldl applyResultEvent buffer

/-! ### App-level start (`App.tsx`) and setup processing (`Setup.tsx`) -/

inductive AppView where
  | setup
  | practice
  | worksheet
  | report
deriving DecidableEq

inductive AudioLanguage where
  | mandarin
  | cantonese
deriving DecidableEq

/-- `AppState` from types.ts. -/
structure AppState where
  view : AppView
  mode : DictationMode
  audioLanguage : AudioLanguage
  dictationList : List DictationItem
  currentIndex : Nat
deriving DecidableEq

/-- `handleStart` from App.tsx.  The returned boolean records whether the
content-missing alert fired (the early `return` branch). -/
def handleStart (s : AppState) (items : List DictationItem)
    (mode : DictationMode) (language : AudioLanguage)
    (targetView : AppView) : AppState × Bool :=
  if items.length = 0 then
    (s, true)
  else
    ({ s with view := targetView
            , dictationList := items
            , mode := mode
            , audioLanguage := language
            , currentIndex := 0 }, false)

/-- A file entry in the Setup component (`{ mimeType, data, name }`). -/
structure SetupFile where
  mimeType : String
  data : String
  name : String
deriving DecidableEq

/-- The state owned by the Setup component that `handleProcess` touches. -/
structure SetupState where
  text : String
  mode : DictationMode
  language : AudioLanguage
  loading : Bool
  files : List SetupFile
deriving DecidableEq

/-- The observable outcome of one `handleProcess` invocation:
the final component state, whether the extraction call was issued,
the sequence of values assigned to the loading flag, and the
argument of the `onStart` callback when it was invoked. -/
structure ProcessResult where
  finalState : SetupState
  extractionCalled : Bool
  loadingTrace : List Bool
  onStartCall : Option (List DictationItem × DictationMode × AudioLanguage × AppView)
deriving DecidableEq

/-- `handleProcess` from Setup.tsx: the guard
`if (!text.trim() && files.length === 0) return;` skips everything;
otherwise loading is set to true, `analyzeMaterial` is awaited (its
resolved value is the `extractionResult` parameter), loading is set back
to false, and `onStart` is invoked. -/
def handleProcess (s : SetupState) (targetView : AppView)
    (extractionResult : List DictationItem) : ProcessResult :=
  if jsTrim s.text = "" ∧ s.files = [] then
    { finalState := s
    , extractionCalled := false
    , loadingTrace := []
    , onStartCall := none }
  else
    { finalState := { s with loading := false }
    , extractionCalled := true
    , loadingTrace := [true, false]
    , onStartCall := some (extractionResult, s.mode, s.language, targetView) }

/-! ### Helper lemmas -/

theorem mapWithIndex_length (f : Nat → RawItem → DictationItem)
    (raws : List RawItem) :
    ∀ i0 : Nat, (mapWithIndex f i0 raws).length = raws.length := by
  induction raws with
  | nil => intro i0; rfl
  | cons a as ih => intro i0; simp [mapWithIndex, ih (i0 + 1)]

theorem mem_mapWithIndex (f : Nat → RawItem → DictationItem)
    (it : DictationItem) (raws : List RawItem) :
    ∀ i0 : Nat, it ∈ mapWithIndex f i0 raws →
      ∃ k raw, raw ∈ raws ∧ it = f k raw := by
  induction raws with
  | nil => intro i0 h; simp [mapWithIndex] at h
  | cons a as ih =>
    intro i0 h
    simp only [mapWithIndex, List.mem_cons] at h
    rcases h with h | h
    · exact ⟨i0, a, by simp, h⟩
    · obtain ⟨k, raw, hmem, heq⟩ := ih (i0 + 1) h
      exact ⟨k, raw, by simp [hmem], heq⟩

theorem mapWithIndex_ids (raws : List RawItem) :
    ∀ i0 : Nat, (mapWithIndex normalizeItem i0 raws).map (fun it => it.id)
      = (List.range raws.length).map (fun k => toString (i0 + k)) := by
  induction raws with
  | nil => intro i0; rfl
  | cons a as ih =>
    intro i0
    have harith : ∀ k : Nat, i0 + 1 + k = i0 + (k + 1) := by omega
    simp [mapWithIndex, normalizeItem, List.range_succ_eq_map, List.map_map,
      Function.comp, ih (i0 + 1), harith]

/-! ### Claim theorems -/

/-- C2: for every input (raw text, attachment list, mode), if the
extraction call fails in any way — the awaited call throws (transport
error), or it resolves but its payload does not parse as an array of
items (malformed payload, unparseable response) — then `analyzeMaterial`
returns the empty list; being a total function, it never raises to the
caller. -/
theorem analyzeMaterial_failure_yields_empty
    (parseJson : String → Option (List RawItem))
    (call : String → List Attachment → DictationMode → CallResult)
    (text : String) (files : List Attachment) (mode : DictationMode)
    (hfail : call text files mode = .failure ∨
      ∃ t, call text files mode = .success t ∧ parseJson (jsOr t "[]") = none) :
    analyzeMaterial parseJson call text files mode = [] := by
  unfold analyzeMaterial
  rcases hfail with h | ⟨t, h, hp⟩
  · rw [h]
  · rw [h]; simp [hp]

theorem analyzeMaterial_failure_yields_empty_witness :
    analyzeMaterial (fun _ => none) (fun _ _ _ => .failure) "今天" [] .vocab
      = [] :=
  analyzeMaterial_failure_yields_empty _ _ _ _ _ (Or.inl rfl)

/-- A raw extraction item with every field absent, used as a concrete
test input. -/
def rawEmptyItem : RawItem :=
  ⟨none, none, none, none, none, none, none, none⟩

/-- C3 counterexample: on a raw item with all fields absent,
`analyzeMaterial` returns an item whose `content` is still absent
(`undefined`, not a non-empty string) and whose `meaning` is the empty
string — the claim that `content` and `meaning` are non-empty after
normalization fails on this concrete input. -/
theorem analyzeMaterial_nonempty_fields_cex :
    (analyzeMaterial (fun _ => some [rawEmptyItem])
        (fun _ _ _ => .success (some "x")) "t" [] .paragraph).map
      (fun it => (it.content, it.meaning)) = [(none, some "")] := by
  decide

/-- C3 (amended): every item returned by `analyzeMaterial` has
`subContent`, `meaning`, `example` and `clozeContent` present as strings
(never `undefined`/null), and each of those fields is coerced to the
empty string when missing from the raw item; `content`, however, is
passed through unchanged from the raw item, so `content` and `meaning`
are not guaranteed to be non-empty. -/
theorem analyzeMaterial_field_normalization
    (parseJson : String → Option (List RawItem))
    (call : String → List Attachment → DictationMode → CallResult)
    (text : String) (files : List Attachment) (mode : DictationMode)
    (it : DictationItem)
    (hmem : it ∈ analyzeMaterial parseJson call text files mode) :
    (it.subContent.isSome = true ∧ it.meaning.isSome = true ∧
     it.exampleSentence.isSome = true ∧ it.clozeContent.isSome = true ∧
     it.isNewParagraph.isSome = true) ∧
    (∀ i raw, raw.subContent = none → raw.pinyin = none →
      (normalizeItem i raw).subContent = some "") ∧
    (∀ i raw, raw.meaning = none → (normalizeItem i raw).meaning = some "") ∧
    (∀ i raw, raw.exampleSentence = none →
      (normalizeItem i raw).exampleSentence = some "") ∧
    (∀ i raw, raw.clozeContent = none →
      (normalizeItem i raw).clozeContent = some "") ∧
    (∀ i raw, (normalizeItem i raw).content = raw.content) := by
  refine ⟨?_, ?_, ?_, ?_, ?_, ?_⟩
  · unfold analyzeMaterial at hmem
    rcases hcall : call text files mode with _ | t
    · rw [hcall] at hmem; simp at hmem
    · rw [hcall] at hmem
      rcases hp : parseJson (jsOr t "[]") with _ | raws
      · simp [hp] at hmem
      · simp only [hp] at hmem
        obtain ⟨k, raw, _, heq⟩ := mem_mapWithIndex normalizeItem it raws 0 hmem
        subst heq
        simp [normalizeItem]
  · intro i raw h1 h2; simp [normalizeItem, h1, h2, jsOr]
  · intro i raw h1; simp [normalizeItem, h1, jsOr]
  · intro i raw h1; simp [normalizeItem, h1, jsOr]
  · intro i raw h1; simp [normalizeItem, h1, jsOr]
  · intro i raw; rfl

theorem analyzeMaterial_field_normalization_witness :
    (normalizeItem 0 rawEmptyItem).meaning.isSome = true ∧
    (normalizeItem 0 rawEmptyItem).content = rawEmptyItem.content :=
  ⟨(analyzeMaterial_field_normalization (fun _ => some [rawEmptyItem])
      (fun _ _ _ => .success (some "x")) "t" [] .paragraph
      (normalizeItem 0 rawEmptyItem) (by decide)).1.2.1,
   (analyzeMaterial_field_normalization (fun _ => some [rawEmptyItem])
      (fun _ _ _ => .success (some "x")) "t" [] .paragraph
      (normalizeItem 0 rawEmptyItem) (by decide)).2.2.2.2.2 0 rawEmptyItem⟩

/-- C9: the ids of the items returned by `analyzeMaterial` are exactly
the zero-based decimal ordinals of their array positions, and any id
supplied by the source payload is ignored by the normalization. -/
theorem analyzeMaterial_ordinal_ids
    (parseJson : String → Option (List RawItem))
    (call : String → List Attachment → DictationMode → CallResult)
    (text : String) (files : List Attachment) (mode : DictationMode) :
    ((analyzeMaterial parseJson call text files mode).map (fun it => it.id))
      = (List.range (analyzeMaterial parseJson call text files mode).length).map
          (fun k => toString k) ∧
    (∀ i raw suppliedId,
      normalizeItem i { raw with id := suppliedId } = normalizeItem i raw) := by
  constructor
  · unfold analyzeMaterial
    cases hcall : call text files mode with
    | failure => rfl
    | success t =>
      cases hp : parseJson (jsOr t "[]") with
      | none => simp [hp]
      | some raws => simp [hp, mapWithIndex_ids raws 0, mapWithIndex_length]
  · intro i raw suppliedId; rfl

theorem analyzeMaterial_ordinal_ids_witness :
    ((analyzeMaterial (fun _ => some [rawEmptyItem, rawEmptyItem])
        (fun _ _ _ => .success (some "x")) "t" [] .vocab).map
      (fun it => it.id))
      = (List.range (analyzeMaterial (fun _ => some [rawEmptyItem, rawEmptyItem])
          (fun _ _ _ => .success (some "x")) "t" [] .vocab).length).map
          (fun k => toString k) :=
  (analyzeMaterial_ordinal_ids (fun _ => some [rawEmptyItem, rawEmptyItem])
    (fun _ _ _ => .success (some "x")) "t" [] .vocab).1

/-- A concrete item with the shape produced by normalization, used as a
test input for the session controller. -/
def demoItem : DictationItem :=
  ⟨"0", some "獅子", some "", some "成語的意思", some "", some "", some false⟩

/-- A two-item list, for tests where a next index exists. -/
def demoItems2 : List DictationItem := [demoItem, demoItem]

/-- The terminal practice state: last item of a one-item list, revealed. -/
def demoTerminalState : PracticeState := ⟨0, .revealed, .idle, []⟩

/-- C1 counterexample: in the terminal state (last item revealed), a
second `handleNext` call is not a no-op — it appends another
congratulatory message, so the terminal signal is emitted once per call,
not exactly once. -/
theorem handleNext_terminal_not_noop :
    handleNext [demoItem] "2" (handleNext [demoItem] "1" demoTerminalState)
      ≠ handleNext [demoItem] "1" demoTerminalState ∧
    (handleNext [demoItem] "2"
        (handleNext [demoItem] "1" demoTerminalState)).messages.length = 2 ∧
    (handleNext [demoItem] "1" demoTerminalState).messages.length = 1 := by
  refine ⟨?_, rfl, rfl⟩
  intro h
  have hlen := congrArg (fun st => st.messages.length) h
  simp [handleNext, demoTerminalState] at hlen

/-- C1 (amended): `handleNext` never decreases the current index; from
the `revealed` stage it increments the index by exactly one when a next
index exists, and otherwise leaves the index unchanged and appends one
congratulatory terminal message per call (so repeated post-terminal
calls each append a further message rather than being no-ops); from the
`reading` stage it only reveals, leaving the index unchanged. -/
theorem handleNext_advance_spec (items : List DictationItem) (now : String) :
    (∀ s : PracticeState, s.currentIndex ≤ (handleNext items now s).currentIndex) ∧
    (∀ idx em msgs, handleNext items now ⟨idx, .reading, em, msgs⟩
        = ⟨idx, .revealed, em, msgs⟩) ∧
    (∀ idx em msgs, handleNext items now ⟨idx, .revealed, em, msgs⟩
        = if idx < items.length - 1 then ⟨idx + 1, .reading, .idle, msgs⟩
          else ⟨idx, .revealed, .happy,
                 msgs ++ [⟨now, .model, finishedText⟩]⟩) := by
  refine ⟨?_, ?_, ?_⟩
  · intro s
    rcases s with ⟨idx, st, em, msgs⟩
    cases st with
    | reading => simp [handleNext]
    | revealed =>
      simp only [handleNext]
      split
      · exact Nat.le_succ idx
      · exact Nat.le_refl idx
  · intro idx em msgs; rfl
  · intro idx em msgs; rfl

/-- C4: whenever `handleNext` changes the current index, the resulting
state already has stage `reading` (the stage is set in the same state
update as the index, so no `revealed` stage is observable at the new
index), and the stage-reset effect that fires on the index change is the
identity on that state — the stage becomes `reading` exactly once. -/
theorem stage_resets_on_index_change (items : List DictationItem)
    (now : String) (s : PracticeState)
    (hchange : (handleNext items now s).currentIndex ≠ s.currentIndex) :
    (handleNext items now s).stage = .reading ∧
    stageResetEffect (handleNext items now s) = handleNext items now s := by
  rcases s with ⟨idx, st, em, msgs⟩
  cases st with
  | reading => simp [handleNext] at hchange
  | revealed =>
    by_cases hc : idx < items.length - 1
    · constructor
      · simp [handleNext, hc]
      · simp [handleNext, hc, stageResetEffect]
    · simp [handleNext, hc] at hchange

theorem stage_resets_on_index_change_witness :
    (handleNext demoItems2 "1" ⟨0, .revealed, .idle, []⟩).stage = .reading ∧
    stageResetEffect (handleNext demoItems2 "1" ⟨0, .revealed, .idle, []⟩)
      = handleNext demoItems2 "1" ⟨0, .revealed, .idle, []⟩ :=
  stage_resets_on_index_change demoItems2 "1" ⟨0, .revealed, .idle, []⟩
    (by decide)

/-- C5: in idiom mode, every invocation of `handlePlayAudio` issues
exactly two utterances in a fixed order: first the idiom text at the
normal rate (0.9), then — after the fixed 2000 ms `setTimeout` delay,
which does not depend on the first utterance having completed — the
meaning with the fixed lead-in text, also at the normal rate. -/
theorem handlePlayAudio_idiom_ordering (item : DictationItem) :
    handlePlayAudio .idiom item
      = [⟨0, jsString item.content, speakRate10 false⟩,
         ⟨idiomDelayMs, meaningLeadIn ++ jsString item.meaning,
          speakRate10 false⟩] ∧
    speakRate10 false = 9 ∧ idiomDelayMs = 2000 :=
  ⟨rfl, rfl, rfl⟩

theorem handlePlayAudio_idiom_ordering_witness :
    handlePlayAudio .idiom demoItem
      = [⟨0, jsString demoItem.content, speakRate10 false⟩,
         ⟨idiomDelayMs, meaningLeadIn ++ jsString demoItem.meaning,
          speakRate10 false⟩] :=
  (handlePlayAudio_idiom_ordering demoItem).1

/-- C6: `chatWithAssistant` always returns a non-empty reply — on a
successful call it returns the response text or the non-empty default,
and when the backend throws it returns the single fixed fallback string;
as a total function it never lets an exception escape. -/
theorem chatWithAssistant_reply_spec (call : String → CallResult)
    (history : List (ChatRole × String)) (currentMessage : String)
    (context : Option String) :
    chatWithAssistant call history currentMessage context ≠ "" ∧
    chatWithAssistant (fun _ => .failure) history currentMessage context
      = chatFallback := by
  constructor
  · unfold chatWithAssistant
    cases call (chatPrompt history currentMessage context) with
    | failure => decide
    | success t => exact jsOr_ne_empty t chatDefaultReply (by decide)
  · rfl

theorem chatWithAssistant_reply_spec_witness :
    chatWithAssistant (fun _ => .failure) [] "你好" none = chatFallback :=
  (chatWithAssistant_reply_spec (fun _ => .failure) [] "你好" none).2

/-- C7: each recognition result event replaces the transcript buffer
with the concatenation of the event's top transcripts in order — after
any sequence of events the buffer equals the transcript of the last
event alone, and in particular the events with top transcripts 你好 and
then 你好嗎 leave the buffer as 你好嗎. -/
theorem recognition_result_replaces (buffer : String)
    (events : List (List SpeechResult)) (ev : List SpeechResult) :
    runResultEvents buffer (events ++ [ev]) = onresultTranscript ev ∧
    runResultEvents "" [[⟨"你好"⟩], [⟨"你好嗎"⟩]] = "你好嗎" := by
  constructor
  · unfold runResultEvents
    rw [List.foldl_append]
    rfl
  · decide

/-- C8: when `handleStart` is invoked with an empty item list, the
application state is returned unchanged (no transition into the practice
or worksheet view, item list untouched) and the content-missing alert
fires. -/
theorem handleStart_empty_blocks (s : AppState) (mode : DictationMode)
    (language : AudioLanguage) (targetView : AppView) :
    handleStart s [] mode language targetView = (s, true) ∧
    (handleStart s [] mode language targetView).1.view = s.view ∧
    (handleStart s [] mode language targetView).1.dictationList
      = s.dictationList :=
  ⟨rfl, rfl, rfl⟩

theorem handleStart_empty_blocks_witness :
    handleStart ⟨.setup, .vocab, .cantonese, [], 0⟩ [] .vocab .cantonese
        .practice
      = (⟨.setup, .vocab, .cantonese, [], 0⟩, true) :=
  (handleStart_empty_blocks ⟨.setup, .vocab, .cantonese, [], 0⟩ .vocab
    .cantonese .practice).1

/-- C10: when the raw text trims to the empty string and the attachment
list is empty, `handleProcess` returns early: no extraction call is
issued, the loading flag is never assigned, `onStart` is not invoked and
the component state is unchanged. -/
theorem handleProcess_blank_input_noop (s : SetupState)
    (targetView : AppView) (extractionResult : List DictationItem)
    (htext : jsTrim s.text = "") (hfiles : s.files = []) :
    handleProcess s targetView extractionResult = ⟨s, false, [], none⟩ := by
  unfold handleProcess
  rw [if_pos ⟨htext, hfiles⟩]

theorem handleProcess_blank_input_noop_witness :
    handleProcess ⟨"  ", .vocab, .cantonese, false, []⟩ .practice []
      = ⟨⟨"  ", .vocab, .cantonese, false, []⟩, false, [], none⟩ :=
  handleProcess_blank_input_noop ⟨"  ", .vocab, .cantonese, false, []⟩
    .practice [] (by decide) rfl

end Dictation
